import Mathlib

/-
Shallow embedding of the minifzf interactive selection engine
(src/minifzf/selector.py, src/minifzf/search.py, src/minifzf/_key.py).

Python strings are modelled as `List Char`, Python ints as `ℤ`.
A row is a list of string fields.  The console height (read live from
the terminal by `rows_count`) is passed as an explicit parameter `h`
to every operation that reads it.
-/

namespace Minifzf

/-- Shorthand: convert a Lean string literal to the `List Char` model. -/
def chars (s : String) : List Char := s.data

/-- A display field is a string. -/
abbrev Str := List Char

/-- A row is an ordered sequence of string fields. -/
abbrev Row := List Str

/-- Characters removed by Python `str.strip()` for ASCII input:
space, tab, newline, carriage return, vertical tab, form feed. -/
def isPySpace (c : Char) : Bool :=
  c = ' ' || c = '\t' || c = '\n' || c = '\r' ||
    c = Char.ofNat 11 || c = Char.ofNat 12

/-- Python `query.strip()`. -/
def pyStrip (s : Str) : Str :=
  ((s.dropWhile isPySpace).reverse.dropWhile isPySpace).reverse

/-- Membership of a single character in Python `string.printable`
(all graphic ASCII, space, and the whitespace controls 9-13). -/
def isPyPrintable (c : Char) : Bool :=
  (32 ≤ c.toNat && c.toNat ≤ 126) || (9 ≤ c.toNat && c.toNat ≤ 13)

/-- Python `query in processed_value`: case-sensitive literal substring test
(search.py line 35, first disjunct). -/
def containsSub (p : Str) : Str → Bool
  | [] => p.isEmpty
  | d :: t => p.isPrefixOf (d :: t) || containsSub p t

/-- Plain case-insensitive in-order (subsequence) test with unrestricted
gaps.  This renders the spec's matcher contract as written (characters of
the query appear in order, not necessarily adjacent, ignoring case); the
code's actual regex search is `patternSearch` below, whose gaps cannot
cross a newline. -/
def subseqCI : List Char → List Char → Bool
  | [], _ => true
  | _ :: _, [] => false
  | c :: p, d :: s =>
      if c.toLower = d.toLower then subseqCI p s else subseqCI (c :: p) s

/-- search.py lines 25-27: matching the tail of the regex built by joining
the pattern characters with lazy gaps `(.*?)` under IGNORECASE (and no
DOTALL), after the first pattern character has been consumed.  A gap may
skip any characters except a newline, which `.` does not match; the next
pattern character is compared case-insensitively.  The disjunction
explores both continuations, so this decides exactly whether the regex
tail can match. -/
def gapMatch : List Char → List Char → Bool
  | [], _ => true
  | _ :: _, [] => false
  | c :: p, d :: t =>
      (c.toLower == d.toLower && gapMatch p t)
        || (d != '\n' && gapMatch (c :: p) t)

/-- search.py line 35, second disjunct: `pattern.search`, which tries to
anchor the regex at every position of the candidate (so the text before
the first matched character is unconstrained), then matches the first
pattern character case-insensitively and continues with `gapMatch`.  An
empty pattern (empty stripped query) matches everything. -/
def patternSearch : List Char → List Char → Bool
  | [], _ => true
  | _ :: _, [] => false
  | c :: p, d :: t =>
      (c.toLower == d.toLower && gapMatch p t) || patternSearch (c :: p) t

/-- Declarative reading of `gapMatch`: each remaining pattern character is
found after a gap free of newline characters, in order,
case-insensitively. -/
def gapProp : List Char → List Char → Prop
  | [], _ => True
  | c :: p, t =>
      ∃ g d rest, t = g ++ d :: rest ∧ '\n' ∉ g ∧ c.toLower = d.toLower ∧ gapProp p rest

/-- Declarative reading of `patternSearch`: an arbitrary (possibly
newline-containing) prefix, then the first pattern character
case-insensitively, then the rest with newline-free gaps. -/
def regexProp (q f : List Char) : Prop :=
  match q with
  | [] => True
  | c :: p => ∃ pre d rest, f = pre ++ d :: rest ∧ c.toLower = d.toLower ∧ gapProp p rest

/-- The per-field test of `iter_search_results` (search.py line 35):
literal substring of the raw query, or a regex-search match of the
stripped query's characters joined by newline-bounded lazy gaps. -/
def fieldMatch (query f : Str) : Bool :=
  containsSub query f || patternSearch (pyStrip query) f

/-- `iter_search_results(query, possibilities)`: the list of yielded
processed values (the fields themselves whose test succeeds). -/
def iterSearchResults (query : Str) (possibilities : List Str) : List Str :=
  possibilities.filter (fun f => fieldMatch query f)

/-- Python `any(...)` over a generator of strings: true iff some yielded
value is truthy, i.e. a non-empty string. -/
def pyAny (l : List Str) : Bool := l.any (fun f => !f.isEmpty)

/-- `Selector.search_rows` (selector.py lines 168-172). -/
def searchRows (origRows : List Row) (query : Str) : List Row :=
  if query.isEmpty then origRows
  else origRows.filter (fun r => pyAny (iterSearchResults query r))

/-- The mutable state of a `Selector` instance (the fields of
selector.py's `__init__`, minus the render/live handles and
`_selected`, which the session model below carries separately). -/
structure SelState where
  originalRows : List Row
  initalRowCount : ℤ
  rows : List Row
  noRowHeight : ℤ
  headers : List Str
  showHeader : Bool
  query : Str
  searching : Bool
  ptr : ℤ
  startIdx : ℤ
  endIdx : ℤ
deriving DecidableEq, Repr

/-- `Selector.rows_count(include_visible=True)` (selector.py lines 131-144):
returns the pair (row count, visible count), reading the live console
height `h`.  The final branch is kept exactly as in the source even
though it is dead whenever `_no_row_height > 0`. -/
def rowsCountVis (s : SelState) (h : ℤ) : ℤ × ℤ :=
  let rowCount : ℤ := if s.searching then (s.rows.length : ℤ) else s.initalRowCount
  let visibles := min (h - s.noRowHeight) rowCount
  if visibles < h then (rowCount, visibles) else (rowCount, visibles - s.noRowHeight)

/-- `Selector.rows_count(include_visible=False)`. -/
def rowsCount (s : SelState) : ℤ :=
  if s.searching then (s.rows.length : ℤ) else s.initalRowCount

/-- `Selector.__init__` (selector.py lines 20-59).  `headers or []` and
`bool(headers)` collapse an absent and an empty header list, so headers
are passed as a plain list; likewise `query or ""` lets the query be a
plain list with `[]` for None. -/
def mkSelector (rows : List Row) (headers : List Str) (query : Str) (h : ℤ) : SelState :=
  let filtered := searchRows rows query
  let showHeader := !headers.isEmpty
  let searching := !query.isEmpty
  let nrh : ℤ := 3 + (if showHeader then 2 else 0) + (if searching then 1 else 0)
  let s : SelState :=
    { originalRows := rows, initalRowCount := (rows.length : ℤ), rows := filtered,
      noRowHeight := nrh, headers := headers, showHeader := showHeader,
      query := query, searching := searching, ptr := 0, startIdx := 0, endIdx := 0 }
  { s with endIdx := min (rowsCountVis s h).1 (rowsCountVis s h).2 }

/-- Normalized key events reaching `Selector.sendkey`.  Multi-character
key names are compared literally in the source; `space` and `tab`
normalize to their characters before any use that distinguishes them,
so they are modelled as `char ' '` and `char '\t'`.  `other` stands for
any remaining special key name (none of which equals `up`, `down`,
`esc`, `backspace` or `q`, and none of which is a substring of
Python's `string.printable`). -/
inductive Key
  | up | down | enter | esc | backspace
  | char (c : Char)
  | other
deriving DecidableEq, Repr

/-- `Selector.scroll_up` (selector.py lines 146-155). -/
def scrollUp (s : SelState) (h : ℤ) : SelState :=
  if s.ptr ≤ 0 then s
  else
    let p := s.ptr - 1
    if p ≥ s.startIdx then { s with ptr := p }
    else
      let rc := (rowsCountVis s h).1
      let vis := (rowsCountVis s h).2
      { s with ptr := p, startIdx := p, endIdx := min rc (p + vis) }

/-- `Selector.scroll_down` (selector.py lines 157-166). -/
def scrollDown (s : SelState) (h : ℤ) : SelState :=
  let rc := (rowsCountVis s h).1
  let vis := (rowsCountVis s h).2
  if s.ptr ≥ rc - 1 then s
  else
    let p := s.ptr + 1
    if p < s.endIdx then { s with ptr := p }
    else { s with ptr := p, endIdx := p + 1, startIdx := max 0 (p + 1 - vis) }

/-- `Selector.navigate` (selector.py lines 174-185).  The source compares
`key == 'up'`, `key in 'down'` (substring membership: any of the single
characters d, o, w, n also triggers a scroll) and
`key in ('/', 'f')`. -/
def navigate (s : SelState) (k : Key) (h : ℤ) : SelState :=
  match k with
  | Key.up => scrollUp s h
  | Key.down => scrollDown s h
  | Key.char c =>
      if c = 'd' || c = 'o' || c = 'w' || c = 'n' then scrollDown s h
      else if c = '/' || c = 'f' then
        let s1 := { s with searching := true, noRowHeight := s.noRowHeight + 1 }
        let vis := (rowsCountVis s1 h).2
        if vis < s1.endIdx then { s1 with endIdx := s1.endIdx - 1 } else s1
      else s
  | _ => s

/-- `Selector.__update_rows` (selector.py lines 187-204), reached only
while searching and for keys other than enter.  Up/down delegate to
`navigate`; every other key mutates the query (backspace drops the last
character, esc cancels the search, a printable character is appended)
and then unconditionally recomputes the filtered rows and resets the
viewport. -/
def updateRows (s : SelState) (k : Key) (h : ℤ) : SelState :=
  match k with
  | Key.up => navigate s Key.up h
  | Key.down => navigate s Key.down h
  | _ =>
    let s1 :=
      match k with
      | Key.backspace => { s with query := s.query.dropLast }
      | Key.esc =>
          { s with searching := false, noRowHeight := s.noRowHeight - 1, query := [] }
      | Key.char c =>
          if isPyPrintable c then { s with query := s.query ++ [c] } else s
      | _ => s
    let s2 := { s1 with rows := searchRows s1.originalRows s1.query,
                        ptr := 0, startIdx := 0 }
    { s2 with endIdx := min (rowsCountVis s2 h).1 (rowsCountVis s2 h).2 }

/-- `Selector.__update_idxs_after_resize` (selector.py lines 266-270). -/
def updateIdxsAfterResize (s : SelState) (h : ℤ) : SelState :=
  let rc := (rowsCountVis s h).1
  let vis := (rowsCountVis s h).2
  let st := max 0 (min s.ptr (rc - vis))
  let en := min rc (st + vis)
  { s with startIdx := st, endIdx := en, ptr := min (max s.ptr st) (en - 1) }

/-- Python sequence indexing `l[i]` with negative-index wrap-around;
an out-of-range index (IndexError in Python, unreachable through the
engine's own transitions) is modelled as `none`. -/
def pyGet {α : Type} (l : List α) (i : ℤ) : Option α :=
  if 0 ≤ i then l.get? i.toNat
  else if 0 ≤ i + (l.length : ℤ) then l.get? (i + (l.length : ℤ)).toNat
  else none

/-- The value shapes `Selector.current_value` can produce. -/
inductive PyValue
  | str (f : Str)
  | row (r : Row)
  | dict (d : List (Str × Str))
deriving DecidableEq, Repr

/-- `Selector.current_value` (selector.py lines 241-252): none when the
filtered rows are empty; a single-field row yields its field; otherwise
a dict of headers zipped with fields when headers exist, else the row. -/
def currentValue (s : SelState) : Option PyValue :=
  if s.rows.isEmpty then none
  else
    match pyGet s.rows s.ptr with
    | none => none
    | some v =>
      match v with
      | [f] => some (PyValue.str f)
      | _ =>
        if s.headers.isEmpty then some (PyValue.row v)
        else some (PyValue.dict (s.headers.zip v))

/-- `Selector.sendkey` (selector.py lines 287-298): returns the new state,
the committed result (only on enter), and whether the session stops
(enter, or esc/q while not searching; the source still calls `navigate`
after `exit()` in the latter case, which is a no-op for esc and q). -/
def sendkey (s : SelState) (k : Key) (h : ℤ) : SelState × Option PyValue × Bool :=
  if k = Key.enter then (s, currentValue s, true)
  else if s.searching then (updateRows s k h, none, false)
  else (navigate s k h, none, k = Key.esc || k = Key.char 'q')

/-- An event reaching the interactive session: a key press, or a
keyboard interrupt raised inside the blocking listen loop. -/
inductive SessionEvent
  | key (k : Key)
  | interrupt

/-- The `Selector.select` loop (selector.py lines 300-317) over a finite
event trace: `none` means the session is still running after the trace;
`some r` means it terminated returning `r` (`r = none` when cancelled,
including by interrupt).  Once a stopping key is dispatched, the
remaining events are never delivered. -/
def runSession (s : SelState) (h : ℤ) : List SessionEvent → Option (Option PyValue)
  | [] => none
  | SessionEvent.interrupt :: _ => some none
  | SessionEvent.key k :: es =>
      let out := sendkey s k h
      if out.2.2 then some out.2.1 else runSession out.1 h es

/-- Errors raised by `Selector.from_mappings` (selector.py lines 79-84). -/
inductive PyErr
  | valueError
  | assertionError
deriving DecidableEq, Repr

/-- `Selector.from_mappings` (selector.py lines 61-87).  A mapping is an
insertion-ordered association list (Python dict); `m.keys()` is the
list of first components, `m.values()` the list of second components. -/
def fromMappings (mappings : List (List (Str × Str))) (query : Str) (h : ℤ) :
    Except PyErr SelState :=
  match mappings with
  | [] => Except.error PyErr.valueError
  | m :: rest =>
      let keys0 := m.map Prod.fst
      if ((m :: rest).map (fun mm => mm.map Prod.fst)).all (fun ks => ks = keys0) then
        Except.ok (mkSelector ((m :: rest).map (fun mm => mm.map Prod.snd)) keys0 query h)
      else Except.error PyErr.assertionError

/-! Concrete states used by the scenario theorems.  Each is built from the
engine's own constructor and transition functions, so each is reachable
in an actual session (the console height passed at each step is the one
the live console would report at that moment). -/

/-- The dataset of spec scenarios A, B and C. -/
def rows3 : List Row := [[chars "alpha"], [chars "bravo"], [chars "charlie"]]

/-- Construction from `rows3` at console height 6, followed by the key
presses down, down, and the search-activation key `/`. -/
def c1final : SelState :=
  (sendkey ((sendkey ((sendkey (mkSelector rows3 [] [] 6) Key.down 6).1) Key.down 6).1)
    (Key.char '/') 6).1

/-- Scenario D input: headers of arity 2 together with a row of arity 1. -/
def scenDState : SelState :=
  mkSelector [[chars "x"]] [chars "id", chars "name"] [] 10

/-- Scenario B run at console height `h`: activate search with `/`, then
type the character a. -/
def c3run (h : ℤ) : SelState :=
  (sendkey ((sendkey (mkSelector rows3 [] [] h) (Key.char '/') h).1) (Key.char 'a') h).1

/-- Executable rendering of the claim's matcher contract, modelled from the
claim's words for comparison with `fieldMatch`: the raw query is a literal
substring of the field, or the raw query's characters appear in order in
the field ignoring case. -/
def specFieldMatch (q f : Str) : Bool := containsSub q f || subseqCI q f

/-- A concrete start state for the session-result witness. -/
def c5state : SelState := mkSelector rows3 [] [] 10

/-- A reachable searching state: scenario B's state at console height 10. -/
def c6state : SelState :=
  (sendkey ((sendkey (mkSelector rows3 [] [] 10) (Key.char '/') 10).1) (Key.char 'a') 10).1

/-- A single-row selector constructed at console height 4: its viewport is
cursor 0, window of size 1. -/
def c7s : SelState := mkSelector [[chars "a"]] [] [] 4

/-- The state of `c7s` after the terminal shrinks to height 3 (new available
height 0, smaller than the current window size 1). -/
def c7bad : SelState := updateIdxsAfterResize c7s 3

/-- A reachable three-row state scrolled to the bottom (cursor 2, window
sliding), used to witness the resize formulas. -/
def c7wState : SelState := scrollDown (scrollDown (mkSelector rows3 [] [] 5) 5) 5

/-- Ten single-field rows. -/
def rows10 : List Row :=
  [[chars "0"], [chars "1"], [chars "2"], [chars "3"], [chars "4"],
   [chars "5"], [chars "6"], [chars "7"], [chars "8"], [chars "9"]]

/-- Construction from `rows10` at console height 8 followed by four down
presses: cursor 4, window still the initial slice 0 to 5. -/
def c8s4 : SelState :=
  scrollDown (scrollDown (scrollDown (scrollDown (mkSelector rows10 [] [] 8) 8) 8) 8) 8

/-- Scenario A start state: `rows3` at console height 5, so the available
height is 2. -/
def sA0 : SelState := mkSelector rows3 [] [] 5

/-- Scenario A after one down press. -/
def sA1 : SelState := scrollDown sA0 5

/-- Scenario C run at console height 10: activate search, type a, type z. -/
def c9final : SelState :=
  (sendkey ((sendkey ((sendkey (mkSelector rows3 [] [] 10) (Key.char '/') 10).1)
    (Key.char 'a') 10).1) (Key.char 'z') 10).1

/-- Scenario C's empty state after one resize-watcher tick at console
height 3 (at most the 4 reserved rows minus 1): the clamp arithmetic on
an empty row set with negative available height drives the cursor
to -2. -/
def c9resized : SelState := updateIdxsAfterResize c9final 3

/-- Two mappings with identical key sequences. -/
def msGood : List (List (Str × Str)) :=
  [[(chars "id", chars "51009"), (chars "name", chars "jjk2")],
   [(chars "id", chars "40748"), (chars "name", chars "jjk")]]

/-- Two mappings whose key sequences differ. -/
def msBad : List (List (Str × Str)) :=
  [[(chars "id", chars "1")], [(chars "key", chars "2")]]

/-! Helper lemmas shared by the claim theorems. -/

/-- Prefix test of core `List.isPrefixOf`, characterized by an append split. -/
theorem isPrefixOf_iff_exists (p s : List Char) :
    p.isPrefixOf s = true ↔ ∃ t, s = p ++ t := by
  induction p generalizing s with
  | nil => simp [List.isPrefixOf]
  | cons c q ih =>
    cases s with
    | nil => simp [List.isPrefixOf]
    | cons d t =>
      simp only [List.isPrefixOf, Bool.and_eq_true, beq_iff_eq, ih]
      constructor
      · rintro ⟨rfl, u, rfl⟩
        exact ⟨u, rfl⟩
      · rintro ⟨u, hu⟩
        injection hu with h1 h2
        exact ⟨h1.symm, u, h2⟩

/-- The substring test is exactly the existence of an append decomposition. -/
theorem containsSub_iff_exists (p s : List Char) :
    containsSub p s = true ↔ ∃ l₁ l₂, s = l₁ ++ p ++ l₂ := by
  induction s with
  | nil =>
    simp only [containsSub, List.isEmpty_iff]
    constructor
    · rintro rfl
      exact ⟨[], [], rfl⟩
    · rintro ⟨l₁, l₂, h⟩
      rcases List.append_eq_nil.mp h.symm with ⟨h1, h2⟩
      exact (List.append_eq_nil.mp h1).2
  | cons d t ih =>
    simp only [containsSub, Bool.or_eq_true, ih, isPrefixOf_iff_exists]
    constructor
    · rintro (⟨u, hu⟩ | ⟨l₁, l₂, rfl⟩)
      · exact ⟨[], u, by simpa using hu⟩
      · exact ⟨d :: l₁, l₂, rfl⟩
    · rintro ⟨l₁, l₂, h⟩
      cases l₁ with
      | nil => exact Or.inl ⟨l₂, by simpa using h⟩
      | cons x xs =>
        injection h with h1 h2
        exact Or.inr ⟨xs, l₂, h2⟩

/-- The greedy case-insensitive scan decides exactly the in-order
(subsequence) occurrence of the lowered pattern in the lowered text. -/
theorem subseqCI_iff_sublist (s p : List Char) :
    subseqCI p s = true ↔ List.Sublist (p.map Char.toLower) (s.map Char.toLower) := by
  induction s generalizing p with
  | nil =>
    cases p with
    | nil => simp [subseqCI]
    | cons c q => simp [subseqCI]
  | cons d t ih =>
    cases p with
    | nil => simp [subseqCI]
    | cons c q =>
      simp only [subseqCI, List.map_cons]
      by_cases hcd : c.toLower = d.toLower
      · rw [if_pos hcd, hcd, ih]
        exact Iff.symm List.cons_sublist_cons
      · rw [if_neg hcd, ih]
        constructor
        · exact fun hsub => hsub.cons _
        · intro hsub
          rcases List.cons_sublist_cons'.mp hsub with h1 | ⟨heq, _⟩
          · exact h1
          · exact absurd heq hcd

/-- The regex-tail matcher holds exactly when each remaining pattern
character occurs in order after a newline-free gap. -/
theorem gapMatch_iff (s : List Char) : ∀ p, gapMatch p s = true ↔ gapProp p s := by
  induction s with
  | nil =>
    intro p
    cases p with
    | nil => simp [gapMatch, gapProp]
    | cons c p' =>
      simp only [gapMatch, gapProp]
      constructor
      · intro hfalse
        exact absurd hfalse (by simp)
      · rintro ⟨g, d, rest, heq, -, -, -⟩
        exact absurd heq.symm (by simp)
  | cons e t ih =>
    intro p
    cases p with
    | nil => simp [gapMatch, gapProp]
    | cons c p' =>
      simp only [gapMatch, gapProp, Bool.or_eq_true, Bool.and_eq_true, beq_iff_eq,
        bne_iff_ne, ih]
      constructor
      · rintro (⟨hcd, htail⟩ | ⟨hne, hrest⟩)
        · exact ⟨[], e, t, rfl, by simp, hcd, htail⟩
        · obtain ⟨g', d, rest, heq, hg', hcd, htl⟩ := hrest
          exact ⟨e :: g', d, rest, by rw [List.cons_append, heq],
            by simp [List.mem_cons, hg', Ne.symm hne], hcd, htl⟩
      · rintro ⟨g, d, rest, heq, hg, hcd, htl⟩
        cases g with
        | nil =>
          rw [List.nil_append] at heq
          injection heq with h1 h2
          subst h1
          subst h2
          exact Or.inl ⟨hcd, htl⟩
        | cons x g' =>
          rw [List.cons_append] at heq
          injection heq with h1 h2
          subst h1
          refine Or.inr ⟨?_, g', d, rest, h2, ?_, hcd, htl⟩
          · intro hx
            exact hg (by rw [hx]; exact List.mem_cons_self _ _)
          · exact fun hm => hg (List.mem_cons_of_mem _ hm)

/-- The regex search holds exactly when the pattern occurs somewhere in
the text: an unconstrained prefix, the first pattern character, then the
tail with newline-free gaps. -/
theorem patternSearch_iff (f : List Char) :
    ∀ q, patternSearch q f = true ↔ regexProp q f := by
  induction f with
  | nil =>
    intro q
    cases q with
    | nil => simp [patternSearch, regexProp]
    | cons c p =>
      simp only [patternSearch, regexProp]
      constructor
      · intro hfalse
        exact absurd hfalse (by simp)
      · rintro ⟨pre, d, rest, heq, -, -⟩
        exact absurd heq.symm (by simp)
  | cons e t ih =>
    intro q
    cases q with
    | nil => simp [patternSearch, regexProp]
    | cons c p =>
      simp only [patternSearch, regexProp, Bool.or_eq_true, Bool.and_eq_true,
        beq_iff_eq, gapMatch_iff, ih]
      constructor
      · rintro (⟨hcd, htail⟩ | hrec)
        · exact ⟨[], e, t, rfl, hcd, htail⟩
        · obtain ⟨pre, d, rest, heq, hcd, htl⟩ := hrec
          exact ⟨e :: pre, d, rest, by rw [List.cons_append, heq], hcd, htl⟩
      · rintro ⟨pre, d, rest, heq, hcd, htl⟩
        cases pre with
        | nil =>
          rw [List.nil_append] at heq
          injection heq with h1 h2
          subst h1
          subst h2
          exact Or.inl ⟨hcd, htl⟩
        | cons x pre' =>
          rw [List.cons_append] at heq
          injection heq with h1 h2
          subst h1
          exact Or.inr ⟨pre', d, rest, h2, hcd, htl⟩

/-- The row-count component of `rows_count` does not depend on the branch. -/
theorem rowsCountVis_fst (s : SelState) (h : ℤ) :
    (rowsCountVis s h).1 = rowsCount s := by
  simp only [rowsCountVis, rowsCount]
  split_ifs <;> rfl

/-- With a positive reserved-row count (always true for reachable states,
where it is at least 3) the dead branch of `rows_count` is never taken. -/
theorem rowsCountVis_eq (s : SelState) (h : ℤ) (hn : 1 ≤ s.noRowHeight) :
    rowsCountVis s h = (rowsCount s, min (h - s.noRowHeight) (rowsCount s)) := by
  simp only [rowsCountVis, rowsCount]
  split_ifs with h1 h2 h3
  any_goals rfl
  all_goals
    exact absurd (lt_of_le_of_lt (min_le_left _ _)
      (show h - s.noRowHeight < h by omega)) (by assumption)

/-- The viewport end recomputed by `min(*rows_count(include_visible=True))`
equals the row count capped by the available height. -/
theorem endIdx_min (s : SelState) (h : ℤ) (hn : 1 ≤ s.noRowHeight) :
    min (rowsCountVis s h).1 (rowsCountVis s h).2 =
      min (rowsCount s) (h - s.noRowHeight) := by
  rw [rowsCountVis_eq s h hn]
  omega

/-- Effect of the esc branch of `__update_rows` (the `cancel()` transition):
leave search mode, drop one reserved row, clear the query, revert the rows
to the full dataset and reset the viewport. -/
theorem updateRows_esc (s : SelState) (h : ℤ) (hn : 2 ≤ s.noRowHeight) :
    updateRows s Key.esc h =
      { s with searching := false, noRowHeight := s.noRowHeight - 1, query := [],
               rows := s.originalRows, ptr := 0, startIdx := 0,
               endIdx := min s.initalRowCount (h - (s.noRowHeight - 1)) } := by
  simp only [updateRows]
  rw [endIdx_min _ h (show (1:ℤ) ≤ s.noRowHeight - 1 by omega)]
  rfl

/-- Effect of the printable-character branch of `__update_rows` (the
`apply_char(c)` transition) while searching. -/
theorem updateRows_char (s : SelState) (c : Char) (h : ℤ)
    (hp : isPyPrintable c = true) (hs : s.searching = true)
    (hn : 1 ≤ s.noRowHeight) :
    updateRows s (Key.char c) h =
      { s with query := s.query ++ [c],
               rows := searchRows s.originalRows (s.query ++ [c]),
               ptr := 0, startIdx := 0,
               endIdx := min ((searchRows s.originalRows (s.query ++ [c])).length : ℤ)
                             (h - s.noRowHeight) } := by
  have hrec : ∀ s2 : SelState, s2.noRowHeight = s.noRowHeight → s2.searching = true →
      s2.rows = searchRows s.originalRows (s.query ++ [c]) →
      min (rowsCountVis s2 h).1 (rowsCountVis s2 h).2 =
        min ((searchRows s.originalRows (s.query ++ [c])).length : ℤ)
            (h - s.noRowHeight) := by
    intro s2 h1 h2 h3
    rw [endIdx_min s2 h (by omega)]
    simp [rowsCount, h2, h3, h1]
  simp only [updateRows, if_pos hp]
  rw [hrec]
  · rfl
  · exact hs
  · rfl

/-- The search-activation branch of `navigate` (key `/`) only flips the
searching flag, grows the reserved rows by one and possibly decrements
the viewport end. -/
theorem navigate_slash (s : SelState) (h : ℤ) :
    ∃ e, navigate s (Key.char '/') h =
      { s with searching := true, noRowHeight := s.noRowHeight + 1, endIdx := e } := by
  simp only [navigate]
  rw [if_neg (by decide), if_pos (by decide)]
  split_ifs
  · exact ⟨_, rfl⟩
  · exact ⟨_, rfl⟩

/-! Claim theorems. -/

/-- C1: the viewport invariant `0 <= window_start <= cursor < window_end <=
len(FilteredRows)` is violated at a reachable state: constructing with rows
alpha, bravo, charlie (no headers, no query) at console height 6 and
dispatching down, down, then the search-activation key leaves the cursor at
2 while the window end has been decremented to 2, so the cursor is no
longer inside the window although the filtered rows are non-empty. -/
theorem C1_invariant_violated :
    c1final.rows.length = 3 ∧ c1final.ptr = 2 ∧ c1final.startIdx = 0 ∧
      c1final.endIdx = 2 ∧ ¬(c1final.ptr < c1final.endIdx) := by decide

/-- C2 counterexample: constructing with headers of arity 2 and a single row
of arity 1 (scenario D) does not fail: `__init__` performs no arity check
and returns a fully formed state holding the mismatched headers and row. -/
theorem C2_counterexample :
    scenDState.headers = [chars "id", chars "name"] ∧
      scenDState.originalRows = [[chars "x"]] ∧ scenDState.showHeader = true ∧
      scenDState.rows = [[chars "x"]] := by decide

/-- C2 amended: construction never fails; for every combination of rows,
headers, initial query and console height the constructor returns a state
that records the given rows and headers unchanged, with no arity
validation of any kind. -/
theorem C2_no_validation (rows : List Row) (headers : List Str) (q : Str) (h : ℤ) :
    (mkSelector rows headers q h).originalRows = rows ∧
      (mkSelector rows headers q h).headers = headers ∧
      (mkSelector rows headers q h).showHeader = !headers.isEmpty ∧
      (mkSelector rows headers q h).query = q :=
  ⟨rfl, rfl, rfl, rfl⟩

/-- C5: the session returns once.  Enter commits the value under the cursor
and terminates, ignoring all later events; an interrupt terminates with no
result; esc or the character q while not searching terminates with no
result. -/
theorem C5_result (s : SelState) (h : ℤ) (es : List SessionEvent) :
    runSession s h (SessionEvent.key Key.enter :: es) = some (currentValue s) ∧
      runSession s h (SessionEvent.interrupt :: es) = some none ∧
      (s.searching = false →
        runSession s h (SessionEvent.key Key.esc :: es) = some none ∧
          runSession s h (SessionEvent.key (Key.char 'q') :: es) = some none) := by
  refine ⟨rfl, rfl, fun hs => ⟨?_, ?_⟩⟩ <;> simp [runSession, sendkey, hs]

/-- C5 witness: at the freshly constructed `rows3` selector, enter returns
the row under the cursor (the single field alpha) and esc returns no
result. -/
theorem C5_witness :
    runSession c5state 10 [SessionEvent.key Key.enter]
        = some (some (PyValue.str (chars "alpha"))) ∧
      runSession c5state 10 [SessionEvent.key Key.esc] = some none := by
  have hmain := C5_result c5state 10 []
  constructor
  · rw [hmain.1]
    decide
  · exact (hmain.2.2 (by decide)).1

/-- C9 counterexample: move down is not a no-op in every reachable state
with empty filtered rows.  From scenario C's empty state, one
resize-watcher tick at console height 3 (available height -1) drives the
cursor to -2; there scroll down mutates the state, moving the cursor to
-1 and the window to start 1, end 0. -/
theorem C9_counterexample :
    c9resized.rows = [] ∧ c9resized.ptr = -2 ∧ c9resized.startIdx = 0 ∧
      c9resized.endIdx = -1 ∧
      scrollDown c9resized 3 ≠ c9resized ∧
      (scrollDown c9resized 3).ptr = -1 ∧
      (scrollDown c9resized 3).startIdx = 1 ∧
      (scrollDown c9resized 3).endIdx = 0 := by
  decide

/-- C9 amended: scenario C with query az empties the filtered rows and
puts the viewport in the empty state (cursor 0, window 0 to 0); and in
every state whose filtered rows are empty (with the row count consistent
and the cursor at most 0), the value under the cursor is none, scroll up
is a no-op, and scroll down is a no-op provided the cursor is at least
-1 — the exception being the resize-produced empty states with cursor
below -1, where scroll down mutates the state. -/
theorem C9_amended :
    (c9final.rows = [] ∧ c9final.ptr = 0 ∧ c9final.startIdx = 0 ∧
        c9final.endIdx = 0 ∧ currentValue c9final = none) ∧
      (∀ (s : SelState) (h : ℤ), s.rows = [] → rowsCount s = 0 → s.ptr ≤ 0 →
        scrollUp s h = s ∧ currentValue s = none ∧
          (-1 ≤ s.ptr → scrollDown s h = s)) := by
  constructor
  · decide
  · intro s h hrows hc hhi
    refine ⟨?_, ?_, fun hlo => ?_⟩
    · unfold scrollUp
      rw [if_pos hhi]
    · unfold currentValue
      rw [if_pos (by simp [hrows])]
    · unfold scrollDown
      rw [rowsCountVis_fst, hc, if_pos (by omega)]

/-- C9 witness: the empty-state conclusions instantiated at the reachable
scenario C state itself (cursor 0). -/
theorem C9_witness :
    scrollUp c9final 10 = c9final ∧ currentValue c9final = none ∧
      scrollDown c9final 10 = c9final := by
  have hmain := C9_amended.2 c9final 10 (by decide) (by decide) (by decide)
  exact ⟨hmain.1, hmain.2.1, hmain.2.2 (by decide)⟩

/-- C3 counterexample: filtering scenario B's dataset by the query a keeps
all three rows (bravo also contains the letter a), not only alpha and
charlie as the claim states. -/
theorem C3_counterexample :
    (c3run 10).rows = rows3 ∧
      (c3run 10).rows ≠ [[chars "alpha"], [chars "charlie"]] := by
  decide

/-- C3 amended: for every console height, activating search and typing the
character a over the dataset alpha, bravo, charlie yields FilteredRows
equal to all three rows (each contains the letter a), resets the cursor
and window start to 0 and sets the window end to
min(3, available height), where the available height is the console
height minus the 4 reserved rows. -/
theorem C3_amended (h : ℤ) :
    (c3run h).rows = rows3 ∧ (c3run h).searching = true ∧
      (c3run h).query = ['a'] ∧ (c3run h).ptr = 0 ∧ (c3run h).startIdx = 0 ∧
      (c3run h).endIdx = min 3 (h - 4) := by
  obtain ⟨e, he⟩ := navigate_slash (mkSelector rows3 [] [] h) h
  have hrun : c3run h =
      updateRows (navigate (mkSelector rows3 [] [] h) (Key.char '/') h)
        (Key.char 'a') h := by
    unfold c3run
    rw [show (sendkey (mkSelector rows3 [] [] h) (Key.char '/') h).1
        = navigate (mkSelector rows3 [] [] h) (Key.char '/') h from rfl, he]
    rfl
  rw [hrun, he, updateRows_char _ 'a' h (by decide) (by exact rfl)
    (by show (1:ℤ) ≤ 3 + 1; norm_num)]
  refine ⟨?_, ?_, ?_, ?_, ?_, ?_⟩
  · show searchRows rows3 ([] ++ ['a']) = rows3
    decide
  · exact rfl
  · show ([] : Str) ++ ['a'] = ['a']
    decide
  · exact rfl
  · exact rfl
  · show min ((searchRows rows3 ([] ++ ['a'])).length : ℤ) (h - (3 + 1)) = min 3 (h - 4)
    rw [show ((searchRows rows3 ([] ++ ['a'])).length : ℤ) = 3 by decide]
    norm_num

/-- C4 counterexample, two probes.  First, the query consisting of the
letter a followed by a space matches the field xa in the code (the regex
is built from the stripped query), while the claim's matcher contract
(substring of the raw query, or raw query characters in order ignoring
case) rejects it.  Second, the query az does not match the field with a
newline between a and z in the code (the regex gap `.` does not match a
newline), while the claim's in-order contract accepts it. -/
theorem C4_counterexample :
    fieldMatch (chars "a ") (chars "xa") = true ∧
      specFieldMatch (chars "a ") (chars "xa") = false ∧
      ¬(∃ l₁ l₂, chars "xa" = l₁ ++ chars "a " ++ l₂) ∧
      ¬ List.Sublist ((chars "a ").map Char.toLower) ((chars "xa").map Char.toLower) ∧
      fieldMatch (chars "az") (chars "a\nz") = false ∧
      specFieldMatch (chars "az") (chars "a\nz") = true ∧
      List.Sublist ((chars "az").map Char.toLower) ((chars "a\nz").map Char.toLower) := by
  refine ⟨by decide, by decide, ?_, ?_, by decide, by decide, ?_⟩
  · intro hex
    have := (containsSub_iff_exists (chars "a ") (chars "xa")).mpr hex
    rw [show containsSub (chars "a ") (chars "xa") = false by decide] at this
    exact Bool.false_ne_true this
  · intro hsub
    have := (subseqCI_iff_sublist (chars "xa") (chars "a ")).mpr hsub
    rw [show subseqCI (chars "a ") (chars "xa") = false by decide] at this
    exact Bool.false_ne_true this
  · exact (subseqCI_iff_sublist (chars "a\nz") (chars "az")).mp (by decide)

/-- C4 amended: for every query, FilteredRows is a sublist of the dataset
(order preserved, no reordering); a row is kept iff the query is empty, or
some non-empty field of the row passes the field test; and the field test
holds iff the raw query occurs as a literal substring of the field, or
the characters of the whitespace-stripped query occur in the field in
order, compared ignoring case, with no newline character inside any gap
between consecutive matched characters (text before the first matched
character is unconstrained, since the regex is searched at every
position). -/
theorem C4_amended :
    (∀ (orig : List Row) (q : Str), List.Sublist (searchRows orig q) orig) ∧
      (∀ (orig : List Row) (q : Str) (r : Row),
        r ∈ searchRows orig q ↔
          r ∈ orig ∧ (q = [] ∨ ∃ f ∈ r, f ≠ [] ∧ fieldMatch q f = true)) ∧
      (∀ (q f : Str), fieldMatch q f = true ↔
        ((∃ l₁ l₂, f = l₁ ++ q ++ l₂) ∨ regexProp (pyStrip q) f)) := by
  refine ⟨?_, ?_, ?_⟩
  · intro orig q
    unfold searchRows
    split
    · exact List.Sublist.refl _
    · exact List.filter_sublist _
  · intro orig q r
    unfold searchRows
    split
    · rename_i hq
      have hq' : q = [] := by simpa using hq
      simp [hq']
    · rename_i hq
      have hq' : ¬q = [] := by simpa using hq
      simp only [List.mem_filter, pyAny, iterSearchResults, List.any_eq_true,
        Bool.and_eq_true, hq', false_or]
      constructor
      · rintro ⟨hr, f, ⟨hfr, hfm⟩, hfe⟩
        exact ⟨hr, f, hfr, by simpa using hfe, hfm⟩
      · rintro ⟨hr, f, hfr, hfe, hfm⟩
        exact ⟨hr, f, ⟨hfr, hfm⟩, by simpa using hfe⟩
  · intro q f
    unfold fieldMatch
    simp only [Bool.or_eq_true, containsSub_iff_exists, patternSearch_iff]

/-- C6: pressing esc while searching dispatches to the cancel transition,
which leaves search mode, always clears the query, decreases the reserved
rows by exactly one, reverts FilteredRows to the full dataset, and resets
the viewport to cursor 0, window start 0, window end
min(row count, available height). -/
theorem C6_cancel (s : SelState) (h : ℤ) (hs : s.searching = true)
    (hn : 2 ≤ s.noRowHeight) (hi : s.initalRowCount = (s.originalRows.length : ℤ)) :
    (sendkey s Key.esc h).1 = updateRows s Key.esc h ∧
      (updateRows s Key.esc h).searching = false ∧
      (updateRows s Key.esc h).query = [] ∧
      (updateRows s Key.esc h).noRowHeight = s.noRowHeight - 1 ∧
      (updateRows s Key.esc h).rows = s.originalRows ∧
      (updateRows s Key.esc h).ptr = 0 ∧
      (updateRows s Key.esc h).startIdx = 0 ∧
      (updateRows s Key.esc h).endIdx
        = min ((s.originalRows.length : ℤ)) (h - (s.noRowHeight - 1)) := by
  have hu := updateRows_esc s h hn
  refine ⟨by simp [sendkey, hs], ?_, ?_, ?_, ?_, ?_, ?_, ?_⟩ <;>
    (rw [hu]; try rw [hi])

/-- C6 witness: cancel at the reachable searching state of scenario B. -/
theorem C6_witness :
    (updateRows c6state Key.esc 10).searching = false ∧
      (updateRows c6state Key.esc 10).query = [] ∧
      (updateRows c6state Key.esc 10).noRowHeight = c6state.noRowHeight - 1 ∧
      (updateRows c6state Key.esc 10).rows = c6state.originalRows ∧
      (updateRows c6state Key.esc 10).ptr = 0 ∧
      (updateRows c6state Key.esc 10).startIdx = 0 ∧
      (updateRows c6state Key.esc 10).endIdx
        = min ((c6state.originalRows.length : ℤ)) (10 - (c6state.noRowHeight - 1)) :=
  (C6_cancel c6state 10 (by decide) (by decide) (by decide)).2

/-- C7 counterexample: shrinking the terminal of a one-row selector from
height 4 to height 3 (new available height 0, smaller than the window size
1) drives the resize clamp to cursor -1 with window end 0, so the claimed
consequence (the invariant still holds and the cursor stays visible) fails
although the filtered rows are non-empty. -/
theorem C7_counterexample :
    3 - c7s.noRowHeight < c7s.endIdx - c7s.startIdx ∧ c7s.rows ≠ [] ∧
      c7bad.ptr = -1 ∧ c7bad.endIdx = 0 ∧ c7bad.rows ≠ [] ∧
      ¬(0 ≤ c7bad.startIdx ∧ c7bad.startIdx ≤ c7bad.ptr ∧
          c7bad.ptr < c7bad.endIdx ∧ c7bad.endIdx ≤ (c7bad.rows.length : ℤ)) := by
  decide

/-- C7 amended: the resize recomputation sets exactly the claimed window
formulas (with the new available height the console height minus the
reserved rows) and clamps the cursor into the window; provided the new
available height is at least 1, the viewport invariant holds afterwards
and the cursor is inside the new window whenever the filtered rows are
non-empty. -/
theorem C7_amended (s : SelState) (h : ℤ) (hn : 1 ≤ s.noRowHeight)
    (hc : rowsCount s = (s.rows.length : ℤ)) :
    (updateIdxsAfterResize s h).startIdx
        = max 0 (min s.ptr ((s.rows.length : ℤ) - (h - s.noRowHeight))) ∧
      (updateIdxsAfterResize s h).endIdx
        = min ((s.rows.length : ℤ))
            ((updateIdxsAfterResize s h).startIdx + (h - s.noRowHeight)) ∧
      (updateIdxsAfterResize s h).ptr
        = min (max s.ptr (updateIdxsAfterResize s h).startIdx)
            ((updateIdxsAfterResize s h).endIdx - 1) ∧
      (s.rows ≠ [] → 1 ≤ h - s.noRowHeight →
        0 ≤ (updateIdxsAfterResize s h).startIdx ∧
          (updateIdxsAfterResize s h).startIdx ≤ (updateIdxsAfterResize s h).ptr ∧
          (updateIdxsAfterResize s h).ptr < (updateIdxsAfterResize s h).endIdx ∧
          (updateIdxsAfterResize s h).endIdx ≤ (s.rows.length : ℤ)) := by
  have hr : updateIdxsAfterResize s h =
      { s with
          startIdx := max 0 (min s.ptr ((s.rows.length : ℤ)
            - min (h - s.noRowHeight) ((s.rows.length : ℤ)))),
          endIdx := min ((s.rows.length : ℤ))
            (max 0 (min s.ptr ((s.rows.length : ℤ)
              - min (h - s.noRowHeight) ((s.rows.length : ℤ))))
              + min (h - s.noRowHeight) ((s.rows.length : ℤ))),
          ptr := min (max s.ptr (max 0 (min s.ptr ((s.rows.length : ℤ)
              - min (h - s.noRowHeight) ((s.rows.length : ℤ))))))
            (min ((s.rows.length : ℤ))
              (max 0 (min s.ptr ((s.rows.length : ℤ)
                - min (h - s.noRowHeight) ((s.rows.length : ℤ))))
                + min (h - s.noRowHeight) ((s.rows.length : ℤ))) - 1) } := by
    simp only [updateIdxsAfterResize]
    rw [rowsCountVis_eq s h hn, hc]
  have hst : (updateIdxsAfterResize s h).startIdx
      = max 0 (min s.ptr ((s.rows.length : ℤ)
        - min (h - s.noRowHeight) ((s.rows.length : ℤ)))) := by
    rw [hr]
  have hen : (updateIdxsAfterResize s h).endIdx
      = min ((s.rows.length : ℤ))
        (max 0 (min s.ptr ((s.rows.length : ℤ)
          - min (h - s.noRowHeight) ((s.rows.length : ℤ))))
          + min (h - s.noRowHeight) ((s.rows.length : ℤ))) := by
    rw [hr]
  have hpt : (updateIdxsAfterResize s h).ptr
      = min (max s.ptr (max 0 (min s.ptr ((s.rows.length : ℤ)
          - min (h - s.noRowHeight) ((s.rows.length : ℤ))))))
        (min ((s.rows.length : ℤ))
          (max 0 (min s.ptr ((s.rows.length : ℤ)
            - min (h - s.noRowHeight) ((s.rows.length : ℤ))))
            + min (h - s.noRowHeight) ((s.rows.length : ℤ))) - 1) := by
    rw [hr]
  refine ⟨?_, ?_, ?_, fun hne hA => ?_⟩
  · simp only [hst]
    try omega
  · simp only [hen, hst]
    try omega
  · simp only [hpt, hen, hst]
    try omega
  · have h1 : 1 ≤ (s.rows.length : ℤ) := by
      cases hx : s.rows with
      | nil => exact absurd hx hne
      | cons a t => simp [hx]
    refine ⟨?_, ?_, ?_, ?_⟩ <;> simp only [hst, hen, hpt] <;> omega

/-- C7 witness: the resize formulas and the invariant at the reachable
bottom-scrolled three-row state, resized at console height 5. -/
theorem C7_witness :
    0 ≤ (updateIdxsAfterResize c7wState 5).startIdx ∧
      (updateIdxsAfterResize c7wState 5).startIdx
        ≤ (updateIdxsAfterResize c7wState 5).ptr ∧
      (updateIdxsAfterResize c7wState 5).ptr
        < (updateIdxsAfterResize c7wState 5).endIdx ∧
      (updateIdxsAfterResize c7wState 5).endIdx ≤ (c7wState.rows.length : ℤ) :=
  (C7_amended c7wState 5 (by decide) (by decide)).2.2.2 (by decide) (by decide)

/-- C8 counterexample: in a reachable state (ten rows constructed at
console height 8, four down presses, cursor 4 window 0 to 5) a further
down press handled at console height 13 slides the window using the
freshly computed available height, giving window start 0, whereas the
claimed formula (window size prior to the slide, here 5) would give
window start 1. -/
theorem C8_counterexample :
    (scrollDown c8s4 13).ptr = 5 ∧ (scrollDown c8s4 13).endIdx = 6 ∧
      (scrollDown c8s4 13).startIdx = 0 ∧
      c8s4.endIdx - c8s4.startIdx = 5 ∧
      (scrollDown c8s4 13).startIdx
        ≠ max 0 ((scrollDown c8s4 13).endIdx - (c8s4.endIdx - c8s4.startIdx)) := by
  decide

/-- C8 amended: scroll down is a no-op when the cursor is at the last
filtered row (or beyond); otherwise it increments the cursor, keeps the
window when the new cursor is still inside it, and otherwise slides so the
window ends just after the cursor with window start
max(0, window_end - visible_height), where visible_height is the
currently available visible height min(console height - reserved rows,
row count) rather than the window size prior to the slide. -/
theorem C8_amended (s : SelState) (h : ℤ) (hn : 1 ≤ s.noRowHeight)
    (hc : rowsCount s = (s.rows.length : ℤ)) :
    ((s.rows.length : ℤ) - 1 ≤ s.ptr → scrollDown s h = s) ∧
      (s.ptr < (s.rows.length : ℤ) - 1 →
        (s.ptr + 1 < s.endIdx → scrollDown s h = { s with ptr := s.ptr + 1 }) ∧
          (s.endIdx ≤ s.ptr + 1 →
            scrollDown s h =
              { s with ptr := s.ptr + 1, endIdx := s.ptr + 1 + 1,
                       startIdx := max 0 (s.ptr + 1 + 1
                         - min (h - s.noRowHeight) ((s.rows.length : ℤ))) })) := by
  have hv : (rowsCountVis s h).2 = min (h - s.noRowHeight) ((s.rows.length : ℤ)) := by
    rw [rowsCountVis_eq s h hn, hc]
  simp only [scrollDown]
  rw [rowsCountVis_fst, hc, hv]
  split_ifs with hg hin
  · exact ⟨fun _ => rfl, fun hlt => absurd hg (by omega)⟩
  · exact ⟨fun hge => absurd hge (by omega),
      fun _ => ⟨fun _ => rfl, fun hle => absurd hin (by omega)⟩⟩
  · exact ⟨fun hge => absurd hge (by omega),
      fun _ => ⟨fun hlt => absurd hlt (by omega), fun _ => rfl⟩⟩

/-- C8 witness (scenario A): three rows at available height 2; the first
down press moves the cursor to 1 with the window unchanged at 0 to 2, the
second moves the cursor to 2 and slides the window to 1 to 3. -/
theorem C8_witness :
    sA0.ptr = 0 ∧ sA0.startIdx = 0 ∧ sA0.endIdx = 2 ∧
      scrollDown sA0 5 = { sA0 with ptr := 1 } ∧
      scrollDown sA1 5 = { sA1 with ptr := 2, endIdx := 3, startIdx := 1 } := by
  refine ⟨by decide, by decide, by decide, ?_, ?_⟩
  · exact ((C8_amended sA0 5 (by decide) (by decide)).2 (by decide)).1 (by decide)
  · have hs := ((C8_amended sA1 5 (by decide) (by decide)).2 (by decide)).2 (by decide)
    rw [hs]
    decide

/-- C10: building a selector from mappings fails with an error on an empty
sequence and whenever some mapping's key sequence differs from the first
mapping's; on success the headers are the first mapping's keys and the
rows are the mappings' value sequences in key order. -/
theorem C10_from_mappings :
    (∀ (q : Str) (h : ℤ), fromMappings [] q h = Except.error PyErr.valueError) ∧
      (∀ (m : List (Str × Str)) (rest : List (List (Str × Str))) (q : Str) (h : ℤ),
        ((∃ mm ∈ rest, mm.map Prod.fst ≠ m.map Prod.fst) →
          fromMappings (m :: rest) q h = Except.error PyErr.assertionError) ∧
          ((∀ mm ∈ rest, mm.map Prod.fst = m.map Prod.fst) →
            fromMappings (m :: rest) q h =
                Except.ok (mkSelector ((m :: rest).map (fun mm => mm.map Prod.snd))
                  (m.map Prod.fst) q h) ∧
              (mkSelector ((m :: rest).map (fun mm => mm.map Prod.snd))
                  (m.map Prod.fst) q h).headers = m.map Prod.fst ∧
              (mkSelector ((m :: rest).map (fun mm => mm.map Prod.snd))
                  (m.map Prod.fst) q h).originalRows
                = (m :: rest).map (fun mm => mm.map Prod.snd))) := by
  constructor
  · intro q h
    rfl
  · intro m rest q h
    constructor
    · rintro ⟨mm, hmm, hne⟩
      simp only [fromMappings]
      rw [if_neg]
      intro hall
      rw [List.all_eq_true] at hall
      have hx := hall (mm.map Prod.fst)
        (List.mem_map_of_mem _ (List.mem_cons_of_mem _ hmm))
      exact hne (by simpa using hx)
    · intro hall
      simp only [fromMappings]
      rw [if_pos]
      · exact ⟨rfl, rfl, rfl⟩
      · rw [List.all_eq_true]
        intro ks hks
        rcases List.mem_map.mp hks with ⟨mm, hmm, rfl⟩
        rcases List.mem_cons.mp hmm with rfl | hmm'
        · simp
        · simpa using hall mm hmm'

/-- C10 witness: the empty sequence errors, two mappings with differing
key sequences error, and two mappings with identical key sequences build
the selector with headers id, name and the value rows. -/
theorem C10_witness :
    fromMappings [] [] 10 = Except.error PyErr.valueError ∧
      fromMappings msBad [] 10 = Except.error PyErr.assertionError ∧
      fromMappings msGood [] 10
        = Except.ok (mkSelector [[chars "51009", chars "jjk2"], [chars "40748", chars "jjk"]]
            [chars "id", chars "name"] [] 10) := by
  refine ⟨C10_from_mappings.1 [] 10, ?_, ?_⟩
  · exact (C10_from_mappings.2 [(chars "id", chars "1")] [[(chars "key", chars "2")]]
      [] 10).1 ⟨[(chars "key", chars "2")], by simp, by decide⟩
  · have hok := ((C10_from_mappings.2 [(chars "id", chars "51009"), (chars "name", chars "jjk2")]
      [[(chars "id", chars "40748"), (chars "name", chars "jjk")]] [] 10).2
      (by intro mm hmm; rw [List.mem_singleton] at hmm; subst hmm; decide)).1
    exact hok.trans (congrArg Except.ok (by decide))

end Minifzf
